import Mathlib

/-!
Verification of the MobileDeParser scraping engine against its
natural-language specification.  The Python sources under `src/` are
shallowly embedded below: pure fragments become Lean functions, stateful
fragments become explicit state passing, fallible fragments return
`Except`, and external effects (network fetches, HTML extraction,
randomness) are supplied as oracle parameters.
-/

namespace MobileDeParser

/-! ## Exception model

Modelled from the spec: the module `shared/exceptions/request_exceptions.py`
is imported throughout the sources but is not present in the repository
snapshot.  From the import sites and the spec's error taxonomy it defines
two ordinary `Exception` subclasses, `OutOfProxiesException` (the spec's
`NoWorkingProxies`) and `RequestException` (the spec's `FetchFailed`).
Being ordinary `Exception` subclasses, both are caught by a bare
`except Exception` clause.  We represent a raised Python exception by its
class together with its message; built-in classes that the embedded code
can raise (`IndexError` from list indexing, `IntegrityError` from the
database layer) get constructors of their own. -/

inductive ExcClass where
  | outOfProxiesException
  | requestException
  | integrityError
  | indexError
  | otherError
  deriving DecidableEq, Repr

structure PyExc where
  cls : ExcClass
  msg : String
  deriving DecidableEq, Repr

/-! ## Python string primitives

`str.split(sep)` and `str.strip()` are re-implemented by structural
recursion over the character list so that every definition evaluates
inside the kernel.  `pySplit` agrees with Python `str.split` for a
non-empty separator: occurrences are scanned left to right and the
text between them (possibly empty) is collected. -/

def isPrefixOfChars : List Char → List Char → Bool
  | [], _ => true
  | _ :: _, [] => false
  | a :: as, b :: bs => a = b && isPrefixOfChars as bs

/-- One splitting step: `fuel` bounds the recursion by the length of the
remaining text, `acc` holds the (reversed) characters of the current
fragment. -/
def splitCharsGo (sep : List Char) : Nat → List Char → List Char → List (List Char)
  | 0, acc, rest => [acc.reverse ++ rest]
  | _ + 1, acc, [] => [acc.reverse]
  | fuel + 1, acc, c :: cs =>
    if isPrefixOfChars sep (c :: cs) then
      acc.reverse :: splitCharsGo sep fuel [] ((c :: cs).drop sep.length)
    else
      splitCharsGo sep fuel (c :: acc) cs

/-- Python `s.split(sep)` for a non-empty separator `sep`. -/
def pySplit (sep : String) (s : String) : List String :=
  (splitCharsGo sep.data (s.data.length + 1) [] s.data).map fun cs => ⟨cs⟩

def isSpaceChar (c : Char) : Bool :=
  c = ' ' || c = '\t' || c = '\n' || c = '\r' || c = '\x0b' || c = '\x0c'

/-- Python `s.strip()`. -/
def pyStrip (s : String) : String :=
  ⟨((s.data.dropWhile isSpaceChar).reverse.dropWhile isSpaceChar).reverse⟩

/-- Python `s.startswith(p)`. -/
def pyStartsWith (p : String) (s : String) : Bool :=
  isPrefixOfChars p.data s.data

/-! ## RecordStore (`src/shared/services/database_service.py`,
`src/shared/models/database_model.py`)

A stored record is reduced to the fields the dedup logic inspects:
its `sku` key, whether `to_csv_dict()` is non-empty (`save_product`
bails out returning `False` on an empty dict), and an oracle flag
`saveFails` standing for an arbitrary exception raised inside the
`session.add`/`session.commit` block for this record.  The store is the
ordered list of committed rows. -/

structure Record where
  sku : String
  valid : Bool
  saveFails : Bool
  deriving DecidableEq, Repr

abbrev Store := List Record

/-- membership of a key among the committed rows. -/
def hasKey (s : Store) (sku : String) : Bool :=
  s.any fun r => r.sku = sku

/-- `DatabaseService.product_exists`: `session.query(...).filter(sku ==
...).first() is not None`. -/
def product_exists (s : Store) (sku : String) : Bool :=
  hasKey s sku

/-- `DatabaseService.get_all_existing_skus`: the set of stored keys
(as the list of `sku` column values; only membership is ever used). -/
def get_all_existing_skus (s : Store) : List String :=
  s.map fun r => r.sku

/-- the `session.add` + `session.commit` of `save_product`, under the
`unique=True` constraint on the `sku` column declared in
`database_model.py`: committing a row whose key is already present
raises `IntegrityError`; an oracle-chosen other failure raises an
arbitrary exception; otherwise the row is appended. -/
def dbCommitInsert (s : Store) (r : Record) : Except PyExc Store :=
  if hasKey s r.sku then
    .error ⟨.integrityError, "UNIQUE constraint failed"⟩
  else if r.saveFails then
    .error ⟨.otherError, "error during commit"⟩
  else
    .ok (s ++ [r])

/-- `DatabaseService.save_product` with the existence pre-check evaluated
against snapshot `precheck`.  The source reads the live table in
`product_exists`; passing an arbitrary (possibly stale) snapshot models
the pre-check racing a concurrent writer, which is exactly the situation
the unique constraint must cover.  `IntegrityError` and every other
exception are caught and turned into `False`, as in the source's
`except` clauses. -/
def save_product_with_precheck (precheck : Store) (s : Store) (r : Record) :
    Store × Bool :=
  if product_exists precheck r.sku then (s, false)
  else if !r.valid then (s, false)
  else
    match dbCommitInsert s r with
    | .ok s2 => (s2, true)
    | .error _ => (s, false)

/-- `DatabaseService.save_product`: the pre-check reads the current
store. -/
def save_product (s : Store) (r : Record) : Store × Bool :=
  save_product_with_precheck s s r

/-- `DatabaseService.save_products_batch`: folds `save_product` over the
list, counting `True` results as new and `False` results as duplicates.
Total by construction, mirroring that `save_product` catches every
exception. -/
def save_products_batch (s : Store) : List Record → Store × Nat × Nat
  | [] => (s, 0, 0)
  | r :: rest =>
    let res := save_product s r
    let out := save_products_batch res.1 rest
    if res.2 then (out.1, out.2.1 + 1, out.2.2)
    else (out.1, out.2.1, out.2.2 + 1)

/-! ## SKU derivation and link filtering
(`src/core/services/parser_service.py`, `_filter_links_by_existing_skus`) -/

def idMarker : String := "?id="

def ampStr : String := "&"

/-- the per-link key derivation `link.split("?id=")[1].split("&")[0]`.
Python raises `IndexError` when the link contains no `"?id="` (the split
yields a single element and `[1]` is out of range); that is the `none`
case.  `.split("&")[0]` always exists. -/
def derive_sku (link : String) : Option String :=
  match pySplit idMarker link with
  | _ :: second :: _ => some ((pySplit ampStr second).headD second)
  | _ => none

/-- the `for link in links` loop of `_filter_links_by_existing_skus`:
empty-key links and already-known keys are skipped, fresh links kept.
`none` is the `IndexError` escaping the loop on a link without the
`"?id="` marker. -/
def filterLinksGo (existing : List String) : List String → Option (List String)
  | [] => some []
  | link :: rest =>
    match derive_sku link with
    | none => none
    | some sku =>
      if sku = "" then filterLinksGo existing rest
      else if existing.any (fun e => e = sku) then filterLinksGo existing rest
      else (filterLinksGo existing rest).map fun t => link :: t

/-- `ParserService._filter_links_by_existing_skus` against a given set of
existing keys: the whole loop sits in a `try` whose `except Exception`
returns the *unfiltered* input list, so an `IndexError` raised mid-loop
discards all filtering done so far. -/
def filter_links_by_existing_skus (existing : List String)
    (links : List String) : List String :=
  (filterLinksGo existing links).getD links

/-! ## ProxyPool (`src/shared/utils/proxy_manager.py`)

The pool's environment is an oracle world: whether the proxy file
exists, whether reading it raises `IOError`, its raw lines, which
candidate passes the health check on which verification attempt
(`check_proxy` outcome), and the index drawn by `random.choice`. -/

structure ProxyWorld where
  fileExists : Bool
  readFails : Bool
  fileLines : List String
  passes : Nat → String → Bool
  randIndex : Nat

structure PoolState where
  valid_proxies : List String
  current_proxy_index : Nat
  deriving DecidableEq, Repr

def hashMark : String := "#"

/-- the file-reading comprehension of `load_and_verify_proxies`:
`line.strip() for line in f if line.strip() and not
line.strip().startswith("#")`. -/
def loadCandidates (lines : List String) : List String :=
  (lines.map pyStrip).filter fun s => !(s = "") && !(pyStartsWith hashMark s)

def noProxiesInFileMsg : String := "No proxies found in file"

def noValidAfterRetriesMsg : String :=
  "No valid proxies found after retry attempts"

/-- the `for attempt in range(self.check_retries)` verification loop.
`remaining` counts loop iterations still to run; per iteration the
candidates that pass the health check (in candidate order, as
`asyncio.gather` preserves order) become the verified set, shuffled on
success.  `ok none` is the loop finishing without any iteration (only
possible for `check_retries = 0`), in which case the pool keeps its
previous verified set.  The Python failure message interpolates
`check_retries`; the constant here elides the number. -/
def verifyLoop (passes : Nat → String → Bool)
    (shuf : List String → List String) (proxies : List String) :
    Nat → Nat → Except PyExc (Option (List String))
  | _, 0 => .ok none
  | attempt, remaining + 1 =>
    let passed := proxies.filter (passes attempt)
    if passed.isEmpty then
      if remaining = 0 then
        .error ⟨.outOfProxiesException, noValidAfterRetriesMsg⟩
      else
        verifyLoop passes shuf proxies (attempt + 1) remaining
    else
      .ok (some (shuf passed))

/-- `ProxyManager.load_and_verify_proxies`: missing file and unreadable
file leave an empty verified set and return normally; a file with zero
candidates raises `OutOfProxiesException` before any verification; the
verification loop either installs a shuffled verified set or raises
`OutOfProxiesException` after exhausting `check_retries` attempts. -/
def load_and_verify_proxies (w : ProxyWorld)
    (shuf : List String → List String) (check_retries : Nat)
    (st : PoolState) : Except PyExc PoolState :=
  if !w.fileExists then .ok { st with valid_proxies := [] }
  else if w.readFails then .ok { st with valid_proxies := [] }
  else
    let proxies := loadCandidates w.fileLines
    if proxies.isEmpty then
      .error ⟨.outOfProxiesException, noProxiesInFileMsg⟩
    else
      match verifyLoop w.passes shuf proxies 0 check_retries with
      | .error e => .error e
      | .ok none => .ok st
      | .ok (some v) => .ok { st with valid_proxies := v }

def indexErrorExc : PyExc := ⟨.indexError, "list index out of range"⟩

/-- `ProxyManager.get_next_proxy`: lazily re-verifies when the set is
empty, then indexes `valid_proxies[current_proxy_index]` — Python list
indexing, raising `IndexError` when out of range — and advances the
round-robin cursor modulo the set size. -/
def get_next_proxy (w : ProxyWorld) (shuf : List String → List String)
    (check_retries : Nat) (st : PoolState) :
    Except PyExc (String × PoolState) := do
  let st1 ←
    if st.valid_proxies.isEmpty then
      load_and_verify_proxies w shuf check_retries st
    else pure st
  match st1.valid_proxies.get? st1.current_proxy_index with
  | none => .error indexErrorExc
  | some p =>
    .ok (p, { st1 with
      current_proxy_index :=
        (st1.current_proxy_index + 1) % st1.valid_proxies.length })

/-- `ProxyManager.get_random_proxy`: lazily re-verifies when the set is
empty, then `random.choice(valid_proxies)` — modelled by the oracle
index reduced modulo the length; `random.choice` on an empty list raises
`IndexError`. -/
def get_random_proxy (w : ProxyWorld) (shuf : List String → List String)
    (check_retries : Nat) (st : PoolState) :
    Except PyExc (String × PoolState) := do
  let st1 ←
    if st.valid_proxies.isEmpty then
      load_and_verify_proxies w shuf check_retries st
    else pure st
  match st1.valid_proxies.get? (w.randIndex % st1.valid_proxies.length) with
  | none => .error indexErrorExc
  | some p => .ok (p, st1)

/-- `ProxyManager.get_proxy_for_request`. -/
def get_proxy_for_request (w : ProxyWorld)
    (shuf : List String → List String) (check_retries : Nat)
    (is_first_request : Bool) (st : PoolState) :
    Except PyExc (String × PoolState) :=
  if is_first_request then get_random_proxy w shuf check_retries st
  else get_next_proxy w shuf check_retries st

/-! ## FetchClient (`src/shared/services/http_client.py`)

The outcome of `session.get(url, proxy=...)` + `raise_for_status()` on a
given attempt is an oracle (the network is external): success with a
body, `ClientResponseError` with an HTTP status, `ClientError`, or any
other exception (timeouts included, both being caught by the final
`except Exception`). -/

inductive AttemptOutcome where
  | success (content : String)
  | httpError (status : Nat) (message : String)
  | networkError (message : String)
  | unexpectedError (message : String)
  deriving DecidableEq, Repr

/-- the value bound to the `proxy` variable of an attempt and passed to
`session.get`. -/
inductive ProxyArg where

  | noProxy
  | proxyStr (s : String)
  | coroutine
  deriving DecidableEq, Repr

structure AttemptRec where
  attempt : Nat
  proxyArg : ProxyArg
  deriving DecidableEq, Repr

/-- `get_content` lines 46–51: when the pool reports proxies, the code
evaluates `self.proxy_manager.get_proxy_for_request(is_first_attempt)`
WITHOUT `await`.  `get_proxy_for_request` is an `async def`, so the call
expression yields an un-executed coroutine object, and that object — not
a proxy string — is what `proxy` is bound to and later handed to
`session.get(url, proxy=proxy)`. -/
def attemptProxyArg (hasProxies : Bool) : ProxyArg :=
  if hasProxies then .coroutine else .noProxy

def httpMsg : String := "HTTP "

def networkMsg : String := "Network error: "

def unexpectedMsg : String := "Unexpected error: "

def allFailedExc : PyExc := ⟨.requestException, "All attempts failed"⟩

/-- the `RequestException` that `get_content` builds from a failed
attempt (`last_exception = RequestException(...)`). -/
def excOfOutcome : AttemptOutcome → PyExc
  | .success _ => ⟨.requestException, ""⟩
  | .httpError s m => ⟨.requestException, httpMsg ++ (Nat.repr s ++ m)⟩
  | .networkError m => ⟨.requestException, networkMsg ++ m⟩
  | .unexpectedError m => ⟨.requestException, unexpectedMsg ++ m⟩

/-- a 4xx status other than 429: `get_content`'s
`if 400 <= e.status < 500 and e.status != 429: break`. -/
def isTerminalStatus (s : Nat) : Bool :=
  (400 ≤ s && s < 500) && !(s = 429)

def isRetryableFailure : AttemptOutcome → Bool
  | .success _ => false
  | .httpError s _ => !isTerminalStatus s
  | .networkError _ => true
  | .unexpectedError _ => true

/-- the `for attempt in range(self.retries + 1)` loop of `get_content`.
Returns the overall result together with the trace of attempts made
(attempt index and the `proxy` argument used).  A success returns the
body; a terminal 4xx breaks out and the function raises the freshly
recorded `last_exception`; every other failure records `last_exception`
and moves to the next attempt; when the range is exhausted the function
raises `last_exception or RequestException("All attempts failed")`. -/
def getContentGo (outcomes : Nat → AttemptOutcome) (hasProxies : Bool) :
    Nat → Nat → Option PyExc → Except PyExc String × List AttemptRec
  | _, 0, lastExc => (.error (lastExc.getD allFailedExc), [])
  | attempt, remaining + 1, _ =>
    let r0 : AttemptRec := ⟨attempt, attemptProxyArg hasProxies⟩
    match outcomes attempt with
    | .success c => (.ok c, [r0])
    | .httpError s m =>
      if isTerminalStatus s then
        (.error (excOfOutcome (.httpError s m)), [r0])
      else
        let next := getContentGo outcomes hasProxies (attempt + 1) remaining
          (some (excOfOutcome (.httpError s m)))
        (next.1, r0 :: next.2)
    | .networkError m =>
      let next := getContentGo outcomes hasProxies (attempt + 1) remaining
        (some (excOfOutcome (.networkError m)))
      (next.1, r0 :: next.2)
    | .unexpectedError m =>
      let next := getContentGo outcomes hasProxies (attempt + 1) remaining
        (some (excOfOutcome (.unexpectedError m)))
      (next.1, r0 :: next.2)

/-- `HTTPClient.get_content`: `retries + 1` loop iterations starting at
attempt 0 with no recorded exception. -/
def get_content (outcomes : Nat → AttemptOutcome) (hasProxies : Bool)
    (retries : Nat) : Except PyExc String × List AttemptRec :=
  getContentGo outcomes hasProxies 0 (retries + 1) none

/-! ## CrawlPipeline (`src/core/services/parser_service.py`)

The pipeline's environment: `fetch` is `http_client.get_content` as seen
by the pipeline (an arbitrary body or an arbitrary raised exception —
in particular an `OutOfProxiesException`, so the claims about its
propagation can be settled for the strongest adversary), `listLinks` is
the pluggable extractor's `parse_for_links` on (body, url) and `extract`
its `parse_for_data`; both extractor operations catch their own
exceptions (returning partial lists / `None`), and an exception escaping
them is caught by the calling service's `except Exception`, so they are
embedded as total oracles. -/

structure PipelineWorld where
  fetch : String → Except PyExc String
  listLinks : String → String → List String
  extract : String → String → Option Record

/-- `ParserService.parse_links_from_url`: on `OutOfProxiesException` the
handler logs and re-raises; every other exception is caught and an empty
list returned. -/
def parse_links_from_url (w : PipelineWorld) (url : String) :
    Except PyExc (List String) :=
  match w.fetch url with
  | .error e =>
    if e.cls = ExcClass.outOfProxiesException then .error e else .ok []
  | .ok html => .ok (w.listLinks html url)

/-- `ParserService.parse_links_batch`: the per-URL tasks run under
`asyncio.gather(*tasks, return_exceptions=True)`, which hands every
raised exception back as an ordinary result; the collection loop keeps
only the list results, so the function is total — no exception, the
spec's `NoWorkingProxies` included, can escape it.  The collected links
are deduplicated (`list(set(...))`, whose order is unspecified; we fix
the computable `List.dedup`, all claims being order-independent) and
filtered against the current store keys. -/
def parse_links_batch (w : PipelineWorld) (store : Store)
    (urls : List String) : List String :=
  let results := urls.map (parse_links_from_url w)
  let all_links := (results.filterMap Except.toOption).flatten
  let unique_links := all_links.dedup
  filter_links_by_existing_skus (get_all_existing_skus store) unique_links

/-- `ParserService.parse_product_card`: `OutOfProxiesException`
re-raised, any other exception caught and `None` returned. -/
def parse_product_card (w : PipelineWorld) (url : String) :
    Except PyExc (Option Record) :=
  match w.fetch url with
  | .error e =>
    if e.cls = ExcClass.outOfProxiesException then .error e else .ok none
  | .ok html => .ok (w.extract html url)

/-- the batching `urls[i : i + max_concurrency]` of the
`range(0, len(urls), max_concurrency)` loops, with fuel equal to the
list length (sufficient for `n ≥ 1`; Python raises on step 0). -/
def chunkListGo (n : Nat) : Nat → List α → List (List α)
  | 0, _ => []
  | _ + 1, [] => []
  | fuel + 1, l@(_ :: _) => l.take n :: chunkListGo n fuel (l.drop n)

def chunkList (n : Nat) (l : List α) : List (List α) :=
  chunkListGo n l.length l

/-- `ParserService.parse_products_batch`: per batch,
`asyncio.gather(*tasks, return_exceptions=True)` absorbs every raised
exception (again including `OutOfProxiesException`) as a per-item
result; only `ProductModel` results are collected.  Total. -/
def parse_products_batch (w : PipelineWorld) (maxConc : Nat)
    (urls : List String) : List Record :=
  ((chunkList maxConc urls).map fun batch =>
    batch.filterMap fun url =>
      match parse_product_card w url with
      | .ok (some r) => some r
      | _ => none).flatten

/-- `ParserService.run_full_parsing` for one cycle, returning (products,
newly-saved count, resulting store).  Link discovery batches the seeds
and unions the per-batch (already filtered) links; the batch call sits
inside `try/except OutOfProxiesException: raise / except Exception:
continue`, itself inside an outer `try/except Exception` that does NOT
re-raise — but `parse_links_batch` is total anyway, so neither handler
can fire.  Extraction runs only when links were found, in a
`try/except OutOfProxiesException: raise / except Exception: pass` —
`parse_products_batch` is total as well, so this `raise` is equally
unreachable and the embedding is a total function: no cycle aborts.
The optional AI post-processing step only rewrites text fields of
already-stored rows and is omitted. -/
def run_full_parsing (w : PipelineWorld) (maxConc : Nat) (store : Store)
    (start_urls : List String) : List Record × Nat × Store :=
  let all_links :=
    ((chunkList maxConc start_urls).map fun b =>
      parse_links_batch w store b).flatten
  let unique_links := all_links.dedup
  let products :=
    if unique_links.isEmpty then []
    else parse_products_batch w maxConc unique_links
  let saved := save_products_batch store products
  (products, saved.2.1, saved.1)

/-! ## CycleScheduler (`src/core/services/scheduler_service.py`)

`start_cyclic_parsing` is driven by the outcome of each
`run_full_parsing` call, supplied per cycle index by an oracle (the
embedded pipeline never raises, but the scheduler's dispatch is
specified for raising cycles, so the adversarial oracle keeps the claim
statable).  Callback invocations are recorded as events tagged with the
cycle index; `fuel` bounds the `while self.is_running` loop (an external
`stop()` flipping the flag). -/

inductive CycleOutcome where
  | ok (products : List Record) (saved : Nat)
  | raiseOutOfProxies
  | raiseOther
  deriving DecidableEq, Repr

inductive SchedEvent where
  | resultCb (products : List Record) (saved : Nat)
  | errorCb
  | emptyResultCb
  deriving DecidableEq, Repr

structure SchedConfig where
  cycleEnabled : Bool
  hasResultCb : Bool
  hasErrorCb : Bool
  deriving DecidableEq, Repr

/-- the scheduler loop body and iteration of `start_cyclic_parsing`:
a successful cycle invokes `callback((products, saved))`;
`OutOfProxiesException` invokes `error_callback(e)` (or, absent one,
`callback(([], 0))`) and `break`s out of the loop; any other exception
invokes `callback(([], 0))` and falls through to the
`if not cycle: break` / sleep / next iteration. -/
def start_cyclic_parsing (cfg : SchedConfig)
    (outcomes : Nat → CycleOutcome) : Nat → Nat → List (Nat × SchedEvent)
  | 0, _ => []
  | fuel + 1, i =>
    match outcomes i with
    | .ok ps saved =>
      let evs := if cfg.hasResultCb then [(i, SchedEvent.resultCb ps saved)] else []
      if cfg.cycleEnabled then
        evs ++ start_cyclic_parsing cfg outcomes fuel (i + 1)
      else evs
    | .raiseOutOfProxies =>
      if cfg.hasErrorCb then [(i, SchedEvent.errorCb)]
      else if cfg.hasResultCb then [(i, SchedEvent.emptyResultCb)]
      else []
    | .raiseOther =>
      let evs := if cfg.hasResultCb then [(i, SchedEvent.emptyResultCb)] else []
      if cfg.cycleEnabled then
        evs ++ start_cyclic_parsing cfg outcomes fuel (i + 1)
      else evs

/-! ## Concrete inputs used by counterexamples and witnesses -/

def oopMsg : String := "No working proxies"

/-- a pipeline world in which every fetch raises
`OutOfProxiesException`. -/
def cexWorldOOP : PipelineWorld :=
  { fetch := fun _ => .error ⟨.outOfProxiesException, oopMsg⟩
    listLinks := fun _ _ => []
    extract := fun _ _ => none }

def cexUrl : String := "u"

def lnkNoMarker : String := "x"

def lnkWithId7 : String := "y?id=7"

def sku7 : String := "7"

def skuK : String := "k"

def recK : Record := ⟨skuK, true, false⟩

def proxyLine : String := "1.2.3.4:80"

/-- proxy file missing. -/
def cexNoFile : ProxyWorld :=
  { fileExists := false, readFails := false, fileLines := []
    passes := fun _ _ => false, randIndex := 0 }

/-- proxy file present but with zero candidate lines. -/
def cexEmptyFile : ProxyWorld :=
  { fileExists := true, readFails := false, fileLines := []
    passes := fun _ _ => false, randIndex := 0 }

/-- proxy file with one candidate that fails verification on every
attempt. -/
def cexAllFail : ProxyWorld :=
  { fileExists := true, readFails := false, fileLines := [proxyLine]
    passes := fun _ _ => false, randIndex := 0 }

def emptyPool : PoolState := ⟨[], 0⟩

/-! ## Store lemmas -/

/-- closed form of `save_product_with_precheck`: the row is committed and
`True` returned exactly when the snapshot misses the key, the record
serializes, the live table misses the key and the commit does not
fail. -/
theorem save_pre_spec (p s : Store) (r : Record) :
    save_product_with_precheck p s r =
      if hasKey p r.sku = false ∧ r.valid = true ∧ hasKey s r.sku = false ∧
          r.saveFails = false
      then (s ++ [r], true) else (s, false) := by
  unfold save_product_with_precheck product_exists dbCommitInsert
  by_cases h1 : hasKey p r.sku = true <;>
    by_cases h2 : r.valid = true <;>
      by_cases h3 : hasKey s r.sku = true <;>
        by_cases h4 : r.saveFails = true <;>
          simp_all

theorem save_product_spec (s : Store) (r : Record) :
    save_product s r =
      if r.valid = true ∧ hasKey s r.sku = false ∧ r.saveFails = false
      then (s ++ [r], true) else (s, false) := by
  rw [save_product, save_pre_spec]
  by_cases h2 : r.valid = true <;>
    by_cases h3 : hasKey s r.sku = true <;>
      by_cases h4 : r.saveFails = true <;>
        simp_all

/-- a record already rejected for a store is still rejected for any
store with at least the same keys. -/
def saveRejected (s : Store) (r : Record) : Prop :=
  hasKey s r.sku = true ∨ r.valid = false ∨ r.saveFails = true

theorem hasKey_append_left (s t : Store) (k : String)
    (h : hasKey s k = true) : hasKey (s ++ t) k = true := by
  simp only [hasKey, List.any_append, Bool.or_eq_true]
  exact Or.inl (by simpa [hasKey] using h)

theorem save_product_rejected (s : Store) (r : Record)
    (h : saveRejected s r) : save_product s r = (s, false) := by
  rw [save_product_spec]
  rcases h with h | h | h <;> simp [h]

theorem save_product_false_of_rejected (p s : Store) (r : Record)
    (h : saveRejected s r) : (save_product_with_precheck p s r).2 = false := by
  rw [save_pre_spec]
  rcases h with h | h | h <;> simp [h]

theorem saveRejected_mono (s s' : Store) (r : Record)
    (hsub : ∀ k, hasKey s k = true → hasKey s' k = true)
    (h : saveRejected s r) : saveRejected s' r := by
  rcases h with h | h | h
  · exact Or.inl (hsub _ h)
  · exact Or.inr (Or.inl h)
  · exact Or.inr (Or.inr h)

/-- C2's witness input evaluated. -/
theorem save_product_recK : save_product [] recK = ([recK], true) := by
  decide

/-! ## Claim C2 -/

/-- C2: `save_product` returns `true` exactly when no record with the
same `sku` was stored and the record is newly persisted (appended), and
returns `false` as a no-op when the key already existed; moreover the
uniqueness is enforced by the store's own unique constraint and not only
by the pre-check — even against an arbitrary stale pre-check snapshot a
present key yields `false`, and two insert attempts for the same key
never both return `true`. -/
theorem c2_insert_if_absent (p1 p2 s : Store) (r r2 : Record) :
    ((save_product s r).2 = true ↔
      (hasKey s r.sku = false ∧ (save_product s r).1 = s ++ [r])) ∧
    (hasKey s r.sku = true → save_product s r = (s, false)) ∧
    (hasKey s r.sku = true →
      (save_product_with_precheck p1 s r).2 = false) ∧
    (r2.sku = r.sku →
      ¬((save_product_with_precheck p1 s r).2 = true ∧
        (save_product_with_precheck p2
          (save_product_with_precheck p1 s r).1 r2).2 = true)) := by
  refine ⟨?_, ?_, ?_, ?_⟩
  · rw [save_product_spec]
    by_cases h2 : r.valid = true <;>
      by_cases h3 : hasKey s r.sku = true <;>
        by_cases h4 : r.saveFails = true <;>
          simp_all
  · intro h
    exact save_product_rejected s r (Or.inl h)
  · intro h
    exact save_product_false_of_rejected p1 s r (Or.inl h)
  · intro hsku ⟨hb1, hb2⟩
    rw [save_pre_spec] at hb1
    by_cases hc : hasKey p1 r.sku = false ∧ r.valid = true ∧
        hasKey s r.sku = false ∧ r.saveFails = false
    · have h1 : (save_product_with_precheck p1 s r).1 = s ++ [r] := by
        rw [save_pre_spec, if_pos hc]
      have hk : hasKey (s ++ [r]) r2.sku = true := by
        simp [hasKey, hsku]
      rw [h1] at hb2
      have := save_product_false_of_rejected p2 (s ++ [r]) r2 (Or.inl hk)
      rw [this] at hb2
      exact Bool.false_ne_true hb2
    · rw [if_neg hc] at hb1
      exact Bool.false_ne_true hb1

/-- C2 witness: with an empty store, inserting `recK` succeeds and a
second insert attempt for the same key — even with the stale empty
snapshot as its pre-check — returns `false`. -/
theorem c2_insert_if_absent_witness :
    ¬((save_product_with_precheck [] [] recK).2 = true ∧
      (save_product_with_precheck []
        (save_product_with_precheck [] [] recK).1 recK).2 = true) :=
  (c2_insert_if_absent [] [] [] recK recK).2.2.2 rfl

/-! ## Claim C10 -/

/-- C10: `save_products_batch` is a total function returning counts with
`new + duplicates = length of the input`, and every per-record
persistence failure (empty `to_csv_dict`, integrity error, any other
exception in `save_product`) is absorbed as a `false` result, hence
counted in the duplicate count exactly as a true duplicate key is. -/
theorem c10_batch_counts (s : Store) (ps : List Record) :
    ((save_products_batch s ps).2.1 + (save_products_batch s ps).2.2 =
      ps.length) ∧
    (∀ (st : Store) (r : Record), r.saveFails = true ∨ r.valid = false →
      (save_product st r).2 = false) := by
  constructor
  · induction ps generalizing s with
    | nil => simp [save_products_batch]
    | cons r rest ih =>
      have h2 := ih (save_product s r).1
      by_cases hb : (save_product s r).2 = true <;>
        simp [save_products_batch, hb] <;> omega
  · intro st r h
    have : saveRejected st r := by
      rcases h with h | h
      · exact Or.inr (Or.inr h)
      · exact Or.inr (Or.inl h)
    rw [save_product_rejected st r this]

/-- C10 witness: a batch of one record whose commit fails and one true
duplicate reports zero new and two duplicates. -/
theorem c10_batch_counts_witness :
    (save_products_batch [recK] [⟨skuK, true, true⟩, recK]).2.1 +
      (save_products_batch [recK] [⟨skuK, true, true⟩, recK]).2.2 = 2 ∧
    (save_product [] (⟨skuK, true, true⟩ : Record)).2 = false :=
  ⟨(c10_batch_counts [recK] [⟨skuK, true, true⟩, recK]).1,
   (c10_batch_counts [] []).2 [] ⟨skuK, true, true⟩ (Or.inl rfl)⟩

/-! ## Claim C1 -/

/-- C1 (code bug): in the world where every fetch raises
`OutOfProxiesException`, the exception does propagate out of the
per-item `parse_links_from_url` / `parse_product_card` (their handlers
re-raise it), but `asyncio.gather(..., return_exceptions=True)` inside
`parse_links_batch` and `parse_products_batch` hands it back as a
per-item result, so both phases absorb it and `run_full_parsing`
completes normally with an empty cycle instead of aborting and
propagating the exception to its caller. -/
theorem c1_out_of_proxies_absorbed :
    parse_links_from_url cexWorldOOP cexUrl =
      .error ⟨.outOfProxiesException, oopMsg⟩ ∧
    parse_product_card cexWorldOOP cexUrl =
      .error ⟨.outOfProxiesException, oopMsg⟩ ∧
    parse_links_batch cexWorldOOP [] [cexUrl] = [] ∧
    parse_products_batch cexWorldOOP 1 [cexUrl] = [] ∧
    run_full_parsing cexWorldOOP 1 [] [cexUrl] = ([], 0, []) :=
  ⟨rfl, rfl, rfl, rfl, rfl⟩

/-! ## Claim C5 -/

/-- C5 (code bug): a discovered link lacking the `"?id="` marker is NOT
dropped by `_filter_links_by_existing_skus`; the `IndexError` from
`link.split("?id=")[1]` aborts the whole loop and the `except` clause
returns every link unfiltered, so the malformed link stays in the output
and the filtering of the other links is lost too: the companion link
whose key `"7"` already exists in the store — dropped when filtering is
intact — is returned as well. -/
theorem c5_malformed_link_not_dropped :
    derive_sku lnkNoMarker = none ∧
    filter_links_by_existing_skus [sku7] [lnkNoMarker, lnkWithId7] =
      [lnkNoMarker, lnkWithId7] ∧
    filter_links_by_existing_skus [sku7] [lnkWithId7] = [] := by
  refine ⟨by decide, by decide, by decide⟩

/-! ## ProxyPool lemmas and claims C4, C9 -/

def errClassOf {α : Type} : Except PyExc α → Option ExcClass
  | .error e => some e.cls
  | .ok _ => none

theorem verifyLoop_all_fail (passes : Nat → String → Bool)
    (shuf : List String → List String) (proxies : List String) :
    ∀ (rem a : Nat), 1 ≤ rem →
    (∀ j, j < rem → proxies.filter (passes (a + j)) = []) →
    verifyLoop passes shuf proxies a rem =
      .error ⟨.outOfProxiesException, noValidAfterRetriesMsg⟩ := by
  intro rem
  induction rem with
  | zero => omega
  | succ r ih =>
    intro a _ hfail
    have h0 : proxies.filter (passes a) = [] := by
      have := hfail 0 (by omega)
      simpa using this
    rcases Nat.eq_zero_or_pos r with hr | hr
    · subst hr
      simp [verifyLoop, h0]
    · have hrec := ih (a + 1) hr (fun j hj => by
        have := hfail (j + 1) (by omega)
        simpa [Nat.add_assoc, Nat.add_comm 1 j] using this)
      simp [verifyLoop, h0, Nat.pos_iff_ne_zero.mp hr, hrec]

theorem verifyLoop_first_pass (passes : Nat → String → Bool)
    (shuf : List String → List String) (proxies : List String)
    (a r : Nat) (h : (proxies.filter (passes a)).isEmpty = false) :
    verifyLoop passes shuf proxies a (r + 1) =
      .ok (some (shuf (proxies.filter (passes a)))) := by
  simp [verifyLoop, h]

theorem load_no_file (w : ProxyWorld) (shuf : List String → List String)
    (n : Nat) (st : PoolState) (h : w.fileExists = false) :
    load_and_verify_proxies w shuf n st =
      .ok { st with valid_proxies := [] } := by
  simp [load_and_verify_proxies, h]

theorem load_empty_file (w : ProxyWorld) (shuf : List String → List String)
    (n : Nat) (st : PoolState) (hf : w.fileExists = true)
    (hr : w.readFails = false) (hc : loadCandidates w.fileLines = []) :
    load_and_verify_proxies w shuf n st =
      .error ⟨.outOfProxiesException, noProxiesInFileMsg⟩ := by
  simp [load_and_verify_proxies, hf, hr, hc]

theorem load_all_fail (w : ProxyWorld) (shuf : List String → List String)
    (n : Nat) (st : PoolState) (hf : w.fileExists = true)
    (hr : w.readFails = false) (hc : loadCandidates w.fileLines ≠ [])
    (hn : 1 ≤ n)
    (hfail : ∀ j, j < n → ∀ p ∈ loadCandidates w.fileLines,
      w.passes j p = false) :
    load_and_verify_proxies w shuf n st =
      .error ⟨.outOfProxiesException, noValidAfterRetriesMsg⟩ := by
  have hv := verifyLoop_all_fail w.passes shuf (loadCandidates w.fileLines)
    n 0 hn (fun j hj => by
      rw [Nat.zero_add, List.filter_eq_nil_iff]
      intro p hp
      simp [hfail j hj p hp])
  simp [load_and_verify_proxies, hf, hr, hc, hv]

theorem load_read_fails (w : ProxyWorld) (shuf : List String → List String)
    (n : Nat) (st : PoolState) (hr : w.readFails = true) :
    load_and_verify_proxies w shuf n st =
      .ok { st with valid_proxies := [] } := by
  cases hfe : w.fileExists with
  | false => simp [load_and_verify_proxies, hfe]
  | true => simp [load_and_verify_proxies, hfe, hr]

/-- the verified set that a successful first verification attempt
installs. -/
def firstPassSet (w : ProxyWorld) (shuf : List String → List String) :
    List String :=
  shuf ((loadCandidates w.fileLines).filter (w.passes 0))

theorem load_first_pass (w : ProxyWorld) (shuf : List String → List String)
    (n : Nat) (st : PoolState) (hf : w.fileExists = true)
    (hr : w.readFails = false)
    (hp : ((loadCandidates w.fileLines).filter (w.passes 0)).isEmpty =
      false) (hn : 1 ≤ n) :
    load_and_verify_proxies w shuf n st =
      .ok { st with valid_proxies := firstPassSet w shuf } := by
  obtain ⟨r, rfl⟩ : ∃ r, n = r + 1 := ⟨n - 1, by omega⟩
  have hc : loadCandidates w.fileLines ≠ [] := by
    intro hnil
    rw [hnil] at hp
    simp at hp
  have hv := verifyLoop_first_pass w.passes shuf
    (loadCandidates w.fileLines) 0 r hp
  simp [load_and_verify_proxies, firstPassSet, hf, hr, hc, hv]

/-- C4 counterexample: with the proxy file missing and the verified set
empty, `get_proxy_for_request` raises `IndexError` — not
`OutOfProxiesException` — in both the random and the round-robin mode
(`load_and_verify_proxies` returns normally with an empty set and the
subsequent `valid_proxies[...]` / `random.choice` indexing fails). -/
theorem c4_counterexample :
    get_proxy_for_request cexNoFile id 3 true emptyPool =
      .error indexErrorExc ∧
    get_proxy_for_request cexNoFile id 3 false emptyPool =
      .error indexErrorExc ∧
    indexErrorExc.cls ≠ ExcClass.outOfProxiesException :=
  ⟨rfl, rfl, by decide⟩

/-- C4 as amended: a call made on an empty verified set first re-runs
load-and-verify; it raises `OutOfProxiesException` when the proxy file
exists and is readable but has zero candidates, or when its candidates
all fail verification on every retry; when the file is missing or
unreadable the call instead raises `IndexError`.  When re-verification
succeeds on its first attempt, a random-mode call returns a proxy; a
round-robin call keeps its retained cursor across the reload, so it
returns a proxy only when that cursor is within the new set's bounds and
raises `IndexError` when the stale cursor is at or past the new size,
despite the successful re-verification. -/
theorem c4_empty_pool_selection (w : ProxyWorld)
    (shuf : List String → List String) (n : Nat) (st : PoolState)
    (mode : Bool) (hempty : st.valid_proxies = []) :
    (w.fileExists = false ∨ w.readFails = true →
      get_proxy_for_request w shuf n mode st = .error indexErrorExc) ∧
    (w.fileExists = true → w.readFails = false →
      loadCandidates w.fileLines = [] →
      get_proxy_for_request w shuf n mode st =
        .error ⟨.outOfProxiesException, noProxiesInFileMsg⟩) ∧
    (w.fileExists = true → w.readFails = false →
      loadCandidates w.fileLines ≠ [] → 1 ≤ n →
      (∀ j, j < n → ∀ p ∈ loadCandidates w.fileLines,
        w.passes j p = false) →
      get_proxy_for_request w shuf n mode st =
        .error ⟨.outOfProxiesException, noValidAfterRetriesMsg⟩) ∧
    (mode = true → w.fileExists = true → w.readFails = false →
      ((loadCandidates w.fileLines).filter (w.passes 0)).isEmpty = false →
      (∀ l : List String, (shuf l).length = l.length) → 1 ≤ n →
      ∃ p st1, get_proxy_for_request w shuf n mode st = .ok (p, st1)) ∧
    (mode = false → w.fileExists = true → w.readFails = false →
      ((loadCandidates w.fileLines).filter (w.passes 0)).isEmpty = false →
      1 ≤ n →
      (firstPassSet w shuf).length ≤ st.current_proxy_index →
      get_proxy_for_request w shuf n mode st = .error indexErrorExc) ∧
    (mode = false → w.fileExists = true → w.readFails = false →
      ((loadCandidates w.fileLines).filter (w.passes 0)).isEmpty = false →
      1 ≤ n →
      st.current_proxy_index < (firstPassSet w shuf).length →
      ∃ p st1, get_proxy_for_request w shuf n mode st = .ok (p, st1)) := by
  refine ⟨?_, ?_, ?_, ?_, ?_, ?_⟩
  · intro h
    have hld : load_and_verify_proxies w shuf n st =
        .ok { st with valid_proxies := [] } := by
      rcases h with h | h
      · exact load_no_file w shuf n st h
      · exact load_read_fails w shuf n st h
    cases mode <;>
      simp [get_proxy_for_request, get_next_proxy, get_random_proxy,
        hempty, hld, Bind.bind, Except.bind, List.get?]
  · intro hf hr hc
    have hld := load_empty_file w shuf n st hf hr hc
    cases mode <;>
      simp [get_proxy_for_request, get_next_proxy, get_random_proxy,
        hempty, hld, Bind.bind, Except.bind]
  · intro hf hr hc hn hfail
    have hld := load_all_fail w shuf n st hf hr hc hn hfail
    cases mode <;>
      simp [get_proxy_for_request, get_next_proxy, get_random_proxy,
        hempty, hld, Bind.bind, Except.bind]
  · intro hmode hf hr hp hlen hn
    subst hmode
    have hld := load_first_pass w shuf n st hf hr hp hn
    have hpos : 0 < (firstPassSet w shuf).length := by
      rw [firstPassSet, hlen]
      cases hfe : (loadCandidates w.fileLines).filter (w.passes 0) with
      | nil => rw [hfe] at hp; simp at hp
      | cons a l => simp
    have hlt := Nat.mod_lt w.randIndex hpos
    obtain ⟨p, hget⟩ : ∃ p,
        (firstPassSet w shuf)[w.randIndex % (firstPassSet w shuf).length]? =
          some p :=
      ⟨_, List.getElem?_eq_getElem hlt⟩
    refine ⟨p, ({ st with valid_proxies := firstPassSet w shuf } : PoolState),
      ?_⟩
    simp [get_proxy_for_request, get_random_proxy, hempty, hld, Bind.bind,
      Except.bind, hget]
  · intro hmode hf hr hp hn hstale
    subst hmode
    have hld := load_first_pass w shuf n st hf hr hp hn
    have hnone : (firstPassSet w shuf)[st.current_proxy_index]? = none :=
      List.getElem?_eq_none hstale
    simp [get_proxy_for_request, get_next_proxy, hempty, hld, Bind.bind,
      Except.bind, hnone]
  · intro hmode hf hr hp hn hin
    subst hmode
    have hld := load_first_pass w shuf n st hf hr hp hn
    obtain ⟨p, hget⟩ : ∃ p,
        (firstPassSet w shuf)[st.current_proxy_index]? = some p :=
      ⟨_, List.getElem?_eq_getElem hin⟩
    refine ⟨p, (⟨firstPassSet w shuf,
      (st.current_proxy_index + 1) % (firstPassSet w shuf).length⟩ :
      PoolState), ?_⟩
    simp [get_proxy_for_request, get_next_proxy, hempty, hld, Bind.bind,
      Except.bind, hget]

/-- proxy file with one candidate that passes verification
immediately. -/
def cexOnePass : ProxyWorld :=
  { fileExists := true, readFails := false, fileLines := [proxyLine]
    passes := fun _ _ => true, randIndex := 5 }

/-- an empty pool whose round-robin cursor is stale at 5 (left over from
a larger, since-emptied verified set). -/
def stalePool : PoolState := ⟨[], 5⟩

/-- C4 witness: the cases of the amended claim at concrete worlds —
missing file gives `IndexError`, empty file and all-failing candidates
give `OutOfProxiesException`, a passing candidate yields a proxy in
random mode and in round-robin mode with an in-range cursor, while a
round-robin call whose stale cursor exceeds the freshly re-verified
1-element set raises `IndexError` despite the successful reload. -/
theorem c4_empty_pool_selection_witness :
    get_proxy_for_request cexNoFile id 3 true emptyPool =
      .error indexErrorExc ∧
    get_proxy_for_request cexEmptyFile id 3 false emptyPool =
      .error ⟨.outOfProxiesException, noProxiesInFileMsg⟩ ∧
    get_proxy_for_request cexAllFail id 2 true emptyPool =
      .error ⟨.outOfProxiesException, noValidAfterRetriesMsg⟩ ∧
    (∃ p st1, get_proxy_for_request cexOnePass id 1 true emptyPool =
      .ok (p, st1)) ∧
    get_proxy_for_request cexOnePass id 1 false stalePool =
      .error indexErrorExc ∧
    ∃ p st1, get_proxy_for_request cexOnePass id 1 false emptyPool =
      .ok (p, st1) :=
  ⟨(c4_empty_pool_selection cexNoFile id 3 emptyPool true rfl).1
      (Or.inl rfl),
   (c4_empty_pool_selection cexEmptyFile id 3 emptyPool false rfl).2.1
      rfl rfl (by decide),
   (c4_empty_pool_selection cexAllFail id 2 emptyPool true rfl).2.2.1
      rfl rfl (by decide) (by decide) (by decide),
   (c4_empty_pool_selection cexOnePass id 1 emptyPool true rfl).2.2.2.1
      rfl rfl rfl (by decide) (fun _ => rfl) (by decide),
   (c4_empty_pool_selection cexOnePass id 1 stalePool false rfl).2.2.2.2.1
      rfl rfl rfl (by decide) (by decide) (by decide),
   (c4_empty_pool_selection cexOnePass id 1 emptyPool false rfl).2.2.2.2.2
      rfl rfl rfl (by decide) (by decide) (by decide)⟩

/-- C9 counterexample: an existing-but-empty proxy source and a source
whose candidates all fail verification raise errors of the SAME
exception class, `OutOfProxiesException` — there is no separate
`NoProxiesConfigured` class, the two situations differ only in the
message — so the claimed distinctness of the two errors fails. -/
theorem c9_counterexample :
    errClassOf (load_and_verify_proxies cexEmptyFile id 2 emptyPool) =
      some ExcClass.outOfProxiesException ∧
    errClassOf (load_and_verify_proxies cexAllFail id 2 emptyPool) =
      some ExcClass.outOfProxiesException ∧
    load_and_verify_proxies cexEmptyFile id 2 emptyPool =
      .error ⟨.outOfProxiesException, noProxiesInFileMsg⟩ ∧
    load_and_verify_proxies cexAllFail id 2 emptyPool =
      .error ⟨.outOfProxiesException, noValidAfterRetriesMsg⟩ :=
  ⟨rfl, rfl, rfl, rfl⟩

/-- C9 as amended: a missing proxy source is non-fatal and leaves the
pool empty; a source that exists but yields zero candidates fails fast
by raising `OutOfProxiesException` with the message
`"No proxies found in file"` — the same exception class as the
verification-exhaustion failure, the two being distinguishable only by
their messages, which do differ. -/
theorem c9_zero_proxy_distinction (w : ProxyWorld)
    (shuf : List String → List String) (n : Nat) (st : PoolState) :
    (w.fileExists = false →
      load_and_verify_proxies w shuf n st =
        .ok { st with valid_proxies := [] }) ∧
    (w.fileExists = true → w.readFails = false →
      loadCandidates w.fileLines = [] →
      load_and_verify_proxies w shuf n st =
        .error ⟨.outOfProxiesException, noProxiesInFileMsg⟩) ∧
    (w.fileExists = true → w.readFails = false →
      loadCandidates w.fileLines ≠ [] → 1 ≤ n →
      (∀ j, j < n → ∀ p ∈ loadCandidates w.fileLines,
        w.passes j p = false) →
      load_and_verify_proxies w shuf n st =
        .error ⟨.outOfProxiesException, noValidAfterRetriesMsg⟩) ∧
    noProxiesInFileMsg ≠ noValidAfterRetriesMsg :=
  ⟨load_no_file w shuf n st,
   load_empty_file w shuf n st,
   fun hf hr hc hn hfail => load_all_fail w shuf n st hf hr hc hn hfail,
   by decide⟩

/-- C9 witness: the three zero-proxy situations evaluated at concrete
worlds. -/
theorem c9_zero_proxy_distinction_witness :
    load_and_verify_proxies cexNoFile id 2 emptyPool =
      .ok { emptyPool with valid_proxies := [] } ∧
    load_and_verify_proxies cexEmptyFile id 2 emptyPool =
      .error ⟨.outOfProxiesException, noProxiesInFileMsg⟩ ∧
    load_and_verify_proxies cexAllFail id 2 emptyPool =
      .error ⟨.outOfProxiesException, noValidAfterRetriesMsg⟩ :=
  ⟨(c9_zero_proxy_distinction cexNoFile id 2 emptyPool).1 rfl,
   (c9_zero_proxy_distinction cexEmptyFile id 2 emptyPool).2.1
      rfl rfl (by decide),
   (c9_zero_proxy_distinction cexAllFail id 2 emptyPool).2.2.1
      rfl rfl (by decide) (by decide) (by decide)⟩

/-! ## FetchClient lemmas and claims C6, C7 -/

def isSuccess : AttemptOutcome → Bool
  | .success _ => true
  | _ => false

theorem getContentGo_len_le (o : Nat → AttemptOutcome) (hp : Bool) :
    ∀ (rem a : Nat) (le : Option PyExc),
      (getContentGo o hp a rem le).2.length ≤ rem := by
  intro rem
  induction rem with
  | zero => intro a le; simp [getContentGo]
  | succ r ih =>
    intro a le
    cases h : o a with
    | success c => simp [getContentGo, h]
    | httpError s m =>
      by_cases ht : isTerminalStatus s = true
      · simp [getContentGo, h, ht]
      · simp only [getContentGo, h, eq_false_of_ne_true ht]
        simp only [Bool.false_eq_true, if_false, List.length_cons]
        exact Nat.succ_le_succ (ih (a + 1) _)
    | networkError m =>
      simp only [getContentGo, h, List.length_cons]
      exact Nat.succ_le_succ (ih (a + 1) _)
    | unexpectedError m =>
      simp only [getContentGo, h, List.length_cons]
      exact Nat.succ_le_succ (ih (a + 1) _)

theorem getContentGo_len_pos (o : Nat → AttemptOutcome) (hp : Bool)
    (rem a : Nat) (le : Option PyExc) (h : 1 ≤ rem) :
    1 ≤ (getContentGo o hp a rem le).2.length := by
  obtain ⟨r, rfl⟩ : ∃ r, rem = r + 1 := ⟨rem - 1, by omega⟩
  cases ho : o a with
  | success c => simp [getContentGo, ho]
  | httpError s m =>
    by_cases ht : isTerminalStatus s = true <;>
      simp [getContentGo, ho, ht]
  | networkError m => simp [getContentGo, ho]
  | unexpectedError m => simp [getContentGo, ho]

theorem getContentGo_proxyArg (o : Nat → AttemptOutcome) (hp : Bool) :
    ∀ (rem a : Nat) (le : Option PyExc) (r : AttemptRec),
      r ∈ (getContentGo o hp a rem le).2 →
      r.proxyArg = attemptProxyArg hp := by
  intro rem
  induction rem with
  | zero => intro a le r hr; simp [getContentGo] at hr
  | succ k ih =>
    intro a le r hr
    cases h : o a with
    | success c =>
      simp [getContentGo, h] at hr
      rw [hr]
    | httpError s m =>
      by_cases ht : isTerminalStatus s = true
      · simp [getContentGo, h, ht] at hr
        rw [hr]
      · simp only [getContentGo, h, eq_false_of_ne_true ht,
          Bool.false_eq_true, if_false, List.mem_cons] at hr
        rcases hr with hr | hr
        · rw [hr]
        · exact ih (a + 1) _ r hr
    | networkError m =>
      simp only [getContentGo, h, List.mem_cons] at hr
      rcases hr with hr | hr
      · rw [hr]
      · exact ih (a + 1) _ r hr
    | unexpectedError m =>
      simp only [getContentGo, h, List.mem_cons] at hr
      rcases hr with hr | hr
      · rw [hr]
      · exact ih (a + 1) _ r hr

theorem getContentGo_terminal (o : Nat → AttemptOutcome) (hp : Bool) :
    ∀ (rem a : Nat) (le : Option PyExc) (j : Nat) (s : Nat) (m : String),
      j < (getContentGo o hp a rem le).2.length →
      o (a + j) = .httpError s m → isTerminalStatus s = true →
      (getContentGo o hp a rem le).2.length = j + 1 ∧
      (getContentGo o hp a rem le).1 =
        .error (excOfOutcome (.httpError s m)) := by
  intro rem
  induction rem with
  | zero => intro a le j s m hj; simp [getContentGo] at hj
  | succ k ih =>
    intro a le j s m hj ho ht
    cases h : o a with
    | success c =>
      have hl : (getContentGo o hp a (k + 1) le).2.length = 1 := by
        simp [getContentGo, h]
      have hj0 : j = 0 := by omega
      rw [hj0, Nat.add_zero] at ho
      rw [h] at ho
      exact absurd ho (by simp)
    | httpError s0 m0 =>
      by_cases ht0 : isTerminalStatus s0 = true
      · have hl : (getContentGo o hp a (k + 1) le).2.length = 1 := by
          simp [getContentGo, h, ht0]
        have hj0 : j = 0 := by omega
        rw [hj0, Nat.add_zero] at ho
        rw [h] at ho
        obtain ⟨hs, hm⟩ : s0 = s ∧ m0 = m := by
          cases ho; exact ⟨rfl, rfl⟩
        subst hs; subst hm
        refine ⟨by omega, ?_⟩
        simp [getContentGo, h, ht0]
      · cases j with
        | zero =>
          rw [Nat.add_zero] at ho
          rw [h] at ho
          obtain ⟨hs, hm⟩ : s0 = s ∧ m0 = m := by
            cases ho; exact ⟨rfl, rfl⟩
          subst hs
          exact absurd ht ht0
        | succ j' =>
          have hmem : j' < (getContentGo o hp (a + 1) k
              (some (excOfOutcome (.httpError s0 m0)))).2.length := by
            have : (getContentGo o hp a (k + 1) le).2.length =
                (getContentGo o hp (a + 1) k
                  (some (excOfOutcome (.httpError s0 m0)))).2.length + 1 := by
              simp [getContentGo, h, eq_false_of_ne_true ht0]
            omega
          have ho' : o (a + 1 + j') = .httpError s m := by
            rw [Nat.add_assoc, Nat.add_comm 1 j']
            exact ho
          have := ih (a + 1) (some (excOfOutcome (.httpError s0 m0)))
            j' s m hmem ho' ht
          constructor
          · have : (getContentGo o hp a (k + 1) le).2.length =
                (getContentGo o hp (a + 1) k
                  (some (excOfOutcome (.httpError s0 m0)))).2.length + 1 := by
              simp [getContentGo, h, eq_false_of_ne_true ht0]
            omega
          · have hres : (getContentGo o hp a (k + 1) le).1 =
                (getContentGo o hp (a + 1) k
                  (some (excOfOutcome (.httpError s0 m0)))).1 := by
              simp [getContentGo, h, eq_false_of_ne_true ht0]
            rw [hres]
            exact this.2
    | networkError m0 =>
      cases j with
      | zero =>
        rw [Nat.add_zero] at ho
        rw [h] at ho
        exact absurd ho (by simp)
      | succ j' =>
        have hlen : (getContentGo o hp a (k + 1) le).2.length =
            (getContentGo o hp (a + 1) k
              (some (excOfOutcome (.networkError m0)))).2.length + 1 := by
          simp [getContentGo, h]
        have hmem : j' < (getContentGo o hp (a + 1) k
            (some (excOfOutcome (.networkError m0)))).2.length := by omega
        have ho' : o (a + 1 + j') = .httpError s m := by
          rw [Nat.add_assoc, Nat.add_comm 1 j']
          exact ho
        have := ih (a + 1) (some (excOfOutcome (.networkError m0)))
          j' s m hmem ho' ht
        refine ⟨by omega, ?_⟩
        have hres : (getContentGo o hp a (k + 1) le).1 =
            (getContentGo o hp (a + 1) k
              (some (excOfOutcome (.networkError m0)))).1 := by
          simp [getContentGo, h]
        rw [hres]
        exact this.2
    | unexpectedError m0 =>
      cases j with
      | zero =>
        rw [Nat.add_zero] at ho
        rw [h] at ho
        exact absurd ho (by simp)
      | succ j' =>
        have hlen : (getContentGo o hp a (k + 1) le).2.length =
            (getContentGo o hp (a + 1) k
              (some (excOfOutcome (.unexpectedError m0)))).2.length + 1 := by
          simp [getContentGo, h]
        have hmem : j' < (getContentGo o hp (a + 1) k
            (some (excOfOutcome (.unexpectedError m0)))).2.length := by omega
        have ho' : o (a + 1 + j') = .httpError s m := by
          rw [Nat.add_assoc, Nat.add_comm 1 j']
          exact ho
        have := ih (a + 1) (some (excOfOutcome (.unexpectedError m0)))
          j' s m hmem ho' ht
        refine ⟨by omega, ?_⟩
        have hres : (getContentGo o hp a (k + 1) le).1 =
            (getContentGo o hp (a + 1) k
              (some (excOfOutcome (.unexpectedError m0)))).1 := by
          simp [getContentGo, h]
        rw [hres]
        exact this.2

theorem getContentGo_retry_continues (o : Nat → AttemptOutcome)
    (hp : Bool) :
    ∀ (rem a : Nat) (le : Option PyExc) (j : Nat), j + 1 < rem →
      j < (getContentGo o hp a rem le).2.length →
      isRetryableFailure (o (a + j)) = true →
      j + 1 < (getContentGo o hp a rem le).2.length := by
  intro rem
  induction rem with
  | zero => intro a le j hj; omega
  | succ k ih =>
    intro a le j hj hjlen hret
    cases h : o a with
    | success c =>
      have hl : (getContentGo o hp a (k + 1) le).2.length = 1 := by
        simp [getContentGo, h]
      cases j with
      | zero =>
        rw [Nat.add_zero, h] at hret
        simp [isRetryableFailure] at hret
      | succ j' => omega
    | httpError s0 m0 =>
      by_cases ht : isTerminalStatus s0 = true
      · have hl : (getContentGo o hp a (k + 1) le).2.length = 1 := by
          simp [getContentGo, h, ht]
        cases j with
        | zero =>
          rw [Nat.add_zero, h] at hret
          simp [isRetryableFailure, ht] at hret
        | succ j' => omega
      · have hlen : (getContentGo o hp a (k + 1) le).2.length =
            (getContentGo o hp (a + 1) k
              (some (excOfOutcome (.httpError s0 m0)))).2.length + 1 := by
          simp [getContentGo, h, eq_false_of_ne_true ht]
        cases j with
        | zero =>
          have := getContentGo_len_pos o hp k (a + 1)
            (some (excOfOutcome (.httpError s0 m0))) (by omega)
          omega
        | succ j' =>
          have hret' : isRetryableFailure (o (a + 1 + j')) = true := by
            rw [Nat.add_assoc, Nat.add_comm 1 j']
            exact hret
          have := ih (a + 1) (some (excOfOutcome (.httpError s0 m0))) j'
            (by omega) (by omega) hret'
          omega
    | networkError m0 =>
      have hlen : (getContentGo o hp a (k + 1) le).2.length =
          (getContentGo o hp (a + 1) k
            (some (excOfOutcome (.networkError m0)))).2.length + 1 := by
        simp [getContentGo, h]
      cases j with
      | zero =>
        have := getContentGo_len_pos o hp k (a + 1)
          (some (excOfOutcome (.networkError m0))) (by omega)
        omega
      | succ j' =>
        have hret' : isRetryableFailure (o (a + 1 + j')) = true := by
          rw [Nat.add_assoc, Nat.add_comm 1 j']
          exact hret
        have := ih (a + 1) (some (excOfOutcome (.networkError m0))) j'
          (by omega) (by omega) hret'
        omega
    | unexpectedError m0 =>
      have hlen : (getContentGo o hp a (k + 1) le).2.length =
          (getContentGo o hp (a + 1) k
            (some (excOfOutcome (.unexpectedError m0)))).2.length + 1 := by
        simp [getContentGo, h]
      cases j with
      | zero =>
        have := getContentGo_len_pos o hp k (a + 1)
          (some (excOfOutcome (.unexpectedError m0))) (by omega)
        omega
      | succ j' =>
        have hret' : isRetryableFailure (o (a + 1 + j')) = true := by
          rw [Nat.add_assoc, Nat.add_comm 1 j']
          exact hret
        have := ih (a + 1) (some (excOfOutcome (.unexpectedError m0))) j'
          (by omega) (by omega) hret'
        omega

theorem getContentGo_exhaust (o : Nat → AttemptOutcome) (hp : Bool) :
    ∀ (rem a : Nat) (le : Option PyExc), 1 ≤ rem →
      (∀ j, j < (getContentGo o hp a rem le).2.length →
        isSuccess (o (a + j)) = false) →
      (getContentGo o hp a rem le).1 =
        .error (excOfOutcome
          (o (a + ((getContentGo o hp a rem le).2.length - 1)))) := by
  intro rem
  induction rem with
  | zero => intro a le h; omega
  | succ k ih =>
    intro a le _ hfail
    cases h : o a with
    | success c =>
      have hl : (getContentGo o hp a (k + 1) le).2.length = 1 := by
        simp [getContentGo, h]
      have := hfail 0 (by omega)
      rw [Nat.add_zero, h] at this
      simp [isSuccess] at this
    | httpError s0 m0 =>
      by_cases ht : isTerminalStatus s0 = true
      · have hl : (getContentGo o hp a (k + 1) le).2.length = 1 := by
          simp [getContentGo, h, ht]
        rw [hl]
        simp only [Nat.sub_self, Nat.add_zero, h]
        simp [getContentGo, h, ht]
      · have hlen : (getContentGo o hp a (k + 1) le).2.length =
            (getContentGo o hp (a + 1) k
              (some (excOfOutcome (.httpError s0 m0)))).2.length + 1 := by
          simp [getContentGo, h, eq_false_of_ne_true ht]
        have hres : (getContentGo o hp a (k + 1) le).1 =
            (getContentGo o hp (a + 1) k
              (some (excOfOutcome (.httpError s0 m0)))).1 := by
          simp [getContentGo, h, eq_false_of_ne_true ht]
        rcases Nat.eq_zero_or_pos k with hk | hk
        · subst hk
          have hsub : getContentGo o hp (a + 1) 0
              (some (excOfOutcome (.httpError s0 m0))) =
              (.error (excOfOutcome (.httpError s0 m0)), []) := by
            simp [getContentGo]
          rw [hres, hsub, hlen, hsub]
          simp [h]
        · have hsublen := getContentGo_len_pos o hp k (a + 1)
            (some (excOfOutcome (.httpError s0 m0))) hk
          have hrec := ih (a + 1) (some (excOfOutcome (.httpError s0 m0)))
            hk (fun j hjl => by
              have := hfail (j + 1) (by omega)
              rw [Nat.add_assoc, Nat.add_comm 1 j]
              exact this)
          rw [hres, hrec, hlen]
          have harith : a + 1 +
              ((getContentGo o hp (a + 1) k
                (some (excOfOutcome (.httpError s0 m0)))).2.length - 1) =
              a + ((getContentGo o hp (a + 1) k
                (some (excOfOutcome (.httpError s0 m0)))).2.length + 1 - 1) := by
            omega
          rw [harith]
    | networkError m0 =>
      have hlen : (getContentGo o hp a (k + 1) le).2.length =
          (getContentGo o hp (a + 1) k
            (some (excOfOutcome (.networkError m0)))).2.length + 1 := by
        simp [getContentGo, h]
      have hres : (getContentGo o hp a (k + 1) le).1 =
          (getContentGo o hp (a + 1) k
            (some (excOfOutcome (.networkError m0)))).1 := by
        simp [getContentGo, h]
      rcases Nat.eq_zero_or_pos k with hk | hk
      · subst hk
        have hsub : getContentGo o hp (a + 1) 0
            (some (excOfOutcome (.networkError m0))) =
            (.error (excOfOutcome (.networkError m0)), []) := by
          simp [getContentGo]
        rw [hres, hsub, hlen, hsub]
        simp [h]
      · have hsublen := getContentGo_len_pos o hp k (a + 1)
          (some (excOfOutcome (.networkError m0))) hk
        have hrec := ih (a + 1) (some (excOfOutcome (.networkError m0)))
          hk (fun j hjl => by
            have := hfail (j + 1) (by omega)
            rw [Nat.add_assoc, Nat.add_comm 1 j]
            exact this)
        rw [hres, hrec, hlen]
        have harith : a + 1 +
            ((getContentGo o hp (a + 1) k
              (some (excOfOutcome (.networkError m0)))).2.length - 1) =
            a + ((getContentGo o hp (a + 1) k
              (some (excOfOutcome (.networkError m0)))).2.length + 1 - 1) := by
          omega
        rw [harith]
    | unexpectedError m0 =>
      have hlen : (getContentGo o hp a (k + 1) le).2.length =
          (getContentGo o hp (a + 1) k
            (some (excOfOutcome (.unexpectedError m0)))).2.length + 1 := by
        simp [getContentGo, h]
      have hres : (getContentGo o hp a (k + 1) le).1 =
          (getContentGo o hp (a + 1) k
            (some (excOfOutcome (.unexpectedError m0)))).1 := by
        simp [getContentGo, h]
      rcases Nat.eq_zero_or_pos k with hk | hk
      · subst hk
        have hsub : getContentGo o hp (a + 1) 0
            (some (excOfOutcome (.unexpectedError m0))) =
            (.error (excOfOutcome (.unexpectedError m0)), []) := by
          simp [getContentGo]
        rw [hres, hsub, hlen, hsub]
        simp [h]
      · have hsublen := getContentGo_len_pos o hp k (a + 1)
          (some (excOfOutcome (.unexpectedError m0))) hk
        have hrec := ih (a + 1) (some (excOfOutcome (.unexpectedError m0)))
          hk (fun j hjl => by
            have := hfail (j + 1) (by omega)
            rw [Nat.add_assoc, Nat.add_comm 1 j]
            exact this)
        rw [hres, hrec, hlen]
        have harith : a + 1 +
            ((getContentGo o hp (a + 1) k
              (some (excOfOutcome (.unexpectedError m0)))).2.length - 1) =
            a + ((getContentGo o hp (a + 1) k
              (some (excOfOutcome (.unexpectedError m0)))).2.length + 1 - 1) := by
          omega
        rw [harith]

/-- C7: `get_content` makes at most `retries + 1` attempts (and at least
one); an HTTP status in 400–499 other than 429 observed on any attempt
stops retrying immediately and the call raises the `RequestException`
wrapping it; a retryable failure (5xx, 429, network error, timeout or
unexpected exception) leads to another attempt whenever attempts remain;
and when no attempt succeeds the call raises the `RequestException`
wrapping the last observed cause instead of returning. -/
theorem c7_retry_policy (outcomes : Nat → AttemptOutcome)
    (hasProxies : Bool) (retries : Nat) :
    ((get_content outcomes hasProxies retries).2.length ≤ retries + 1) ∧
    (1 ≤ (get_content outcomes hasProxies retries).2.length) ∧
    (∀ j s m, j < (get_content outcomes hasProxies retries).2.length →
      outcomes j = .httpError s m → isTerminalStatus s = true →
      (get_content outcomes hasProxies retries).2.length = j + 1 ∧
      (get_content outcomes hasProxies retries).1 =
        .error (excOfOutcome (.httpError s m))) ∧
    (∀ j, j + 1 < retries + 1 →
      j < (get_content outcomes hasProxies retries).2.length →
      isRetryableFailure (outcomes j) = true →
      j + 1 < (get_content outcomes hasProxies retries).2.length) ∧
    ((∀ j, j < (get_content outcomes hasProxies retries).2.length →
        isSuccess (outcomes j) = false) →
      (get_content outcomes hasProxies retries).1 =
        .error (excOfOutcome (outcomes
          ((get_content outcomes hasProxies retries).2.length - 1)))) := by
  refine ⟨?_, ?_, ?_, ?_, ?_⟩
  · exact getContentGo_len_le outcomes hasProxies (retries + 1) 0 none
  · exact getContentGo_len_pos outcomes hasProxies (retries + 1) 0 none
      (by omega)
  · intro j s m hj ho ht
    have := getContentGo_terminal outcomes hasProxies (retries + 1) 0 none
      j s m hj (by rw [Nat.zero_add]; exact ho) ht
    exact this
  · intro j hj hjlen hret
    exact getContentGo_retry_continues outcomes hasProxies (retries + 1) 0
      none j hj hjlen (by rw [Nat.zero_add]; exact hret)
  · intro hfail
    have := getContentGo_exhaust outcomes hasProxies (retries + 1) 0 none
      (by omega) (fun j hjl => by rw [Nat.zero_add]; exact hfail j hjl)
    rw [Nat.zero_add] at this
    exact this

def bodyOK : String := "body"

def notFoundMsg : String := "Not Found"

def gatewayMsg : String := "Bad Gateway"

/-- a concrete attempt schedule: attempt 0 hits a 502, attempt 1 a 404,
later attempts would succeed. -/
def cexOutcomes : Nat → AttemptOutcome := fun i =>
  if i = 0 then .httpError 502 gatewayMsg
  else if i = 1 then .httpError 404 notFoundMsg
  else .success bodyOK

/-- C7 witness: with five retries allowed, the 502 on attempt 0 is
retried, the 404 on attempt 1 terminates the call after exactly two
attempts, and the error wraps the 404. -/
theorem c7_retry_policy_witness :
    (get_content cexOutcomes true 5).2.length = 1 + 1 ∧
    (get_content cexOutcomes true 5).1 =
      .error (excOfOutcome (.httpError 404 notFoundMsg)) :=
  (c7_retry_policy cexOutcomes true 5).2.2.1 1 404 notFoundMsg
    (by decide) (by decide) (by decide)

/-- C6 (code bug): because line 49 of `get_content` calls the async
`get_proxy_for_request` without `await`, the `proxy` argument passed to
`session.get` on EVERY attempt made with a non-empty pool is the
un-executed coroutine object — never a proxy string drawn from the pool,
neither a random one on attempt 0 nor a round-robin one later. -/
theorem c6_proxy_argument_is_unawaited_coroutine
    (outcomes : Nat → AttemptOutcome) (retries : Nat) :
    (((get_content outcomes true retries).2).all
      fun r => r.proxyArg == ProxyArg.coroutine) = true ∧
    (∀ p : String,
      (ProxyArg.coroutine == ProxyArg.proxyStr p) = false) ∧
    attemptProxyArg true = ProxyArg.coroutine := by
  refine ⟨?_, fun p => rfl, rfl⟩
  rw [List.all_eq_true]
  intro r hr
  have := getContentGo_proxyArg outcomes true (retries + 1) 0 none r hr
  simp [this, attemptProxyArg]

/-! ## Claim C8 -/

/-- with both callbacks registered, every iteration that runs emits an
event tagged with its cycle index, whatever its outcome. -/
theorem sched_first_event (outcomes : Nat → CycleOutcome) (fuel i : Nat) :
    ∃ e t, start_cyclic_parsing ⟨true, true, true⟩ outcomes (fuel + 1) i =
      (i, e) :: t := by
  cases h : outcomes i with
  | ok ps saved =>
    exact ⟨SchedEvent.resultCb ps saved,
      start_cyclic_parsing ⟨true, true, true⟩ outcomes fuel (i + 1),
      by simp [start_cyclic_parsing, h]⟩
  | raiseOutOfProxies =>
    exact ⟨SchedEvent.errorCb, [], by simp [start_cyclic_parsing, h]⟩
  | raiseOther =>
    exact ⟨SchedEvent.emptyResultCb,
      start_cyclic_parsing ⟨true, true, true⟩ outcomes fuel (i + 1),
      by simp [start_cyclic_parsing, h]⟩

/-- C8: in the scheduler loop with the result and error callbacks
registered and repetition enabled, a cycle raising
`OutOfProxiesException` invokes the error callback with it and the loop
terminates — its whole remaining trace is that single event, so no
further cycle runs however much fuel remains; a cycle raising any other
exception invokes the result callback with the empty result and the loop
continues at cycle `i + 1`, which (given fuel) actually executes. -/
theorem c8_scheduler_dispatch (outcomes : Nat → CycleOutcome)
    (fuel i : Nat) :
    (outcomes i = .raiseOutOfProxies →
      start_cyclic_parsing ⟨true, true, true⟩ outcomes (fuel + 1) i =
        [(i, SchedEvent.errorCb)]) ∧
    (outcomes i = .raiseOther →
      start_cyclic_parsing ⟨true, true, true⟩ outcomes (fuel + 1) i =
        (i, SchedEvent.emptyResultCb) ::
          start_cyclic_parsing ⟨true, true, true⟩ outcomes fuel (i + 1)) ∧
    (outcomes i = .raiseOther → 1 ≤ fuel → ∃ e t,
      start_cyclic_parsing ⟨true, true, true⟩ outcomes (fuel + 1) i =
        (i, SchedEvent.emptyResultCb) :: (i + 1, e) :: t) ∧
    (∀ ps saved, outcomes i = .ok ps saved →
      start_cyclic_parsing ⟨true, true, true⟩ outcomes (fuel + 1) i =
        (i, SchedEvent.resultCb ps saved) ::
          start_cyclic_parsing ⟨true, true, true⟩ outcomes fuel (i + 1)) := by
  refine ⟨?_, ?_, ?_, ?_⟩
  · intro h
    simp [start_cyclic_parsing, h]
  · intro h
    simp [start_cyclic_parsing, h]
  · intro h hfuel
    obtain ⟨f, rfl⟩ : ∃ f, fuel = f + 1 := ⟨fuel - 1, by omega⟩
    obtain ⟨e, t, hnext⟩ := sched_first_event outcomes f (i + 1)
    refine ⟨e, t, ?_⟩
    have hstep : start_cyclic_parsing ⟨true, true, true⟩ outcomes
        (f + 1 + 1) i =
        (i, SchedEvent.emptyResultCb) ::
          start_cyclic_parsing ⟨true, true, true⟩ outcomes (f + 1)
            (i + 1) := by
      simp [start_cyclic_parsing, h]
    rw [hstep, hnext]
  · intro ps saved h
    simp [start_cyclic_parsing, h]

def cexSchedOutcomes : Nat → CycleOutcome := fun i =>
  if i = 0 then .raiseOther
  else if i = 1 then .raiseOutOfProxies
  else .ok [] 0

/-- C8 witness: cycle 0 raises an ordinary exception — the empty result
is delivered and cycle 1 runs; cycle 1 raises `OutOfProxiesException` —
the error callback fires and the loop stops with plenty of fuel left. -/
theorem c8_scheduler_dispatch_witness :
    start_cyclic_parsing ⟨true, true, true⟩ cexSchedOutcomes 10 0 =
      (0, SchedEvent.emptyResultCb) ::
        start_cyclic_parsing ⟨true, true, true⟩ cexSchedOutcomes 9 1 ∧
    start_cyclic_parsing ⟨true, true, true⟩ cexSchedOutcomes 9 1 =
      [(1, SchedEvent.errorCb)] :=
  ⟨(c8_scheduler_dispatch cexSchedOutcomes 9 0).2.1 rfl,
   (c8_scheduler_dispatch cexSchedOutcomes 8 1).1 rfl⟩

/-! ## Filtering characterization (towards claim C3) -/

/-- the per-link keep condition of an abort-free filtering pass. -/
def keepLink (existing : List String) (l : String) : Bool :=
  match derive_sku l with
  | none => false
  | some k => (!(k = "")) && !(existing.any fun e => e = k)

theorem filterLinksGo_eq_none_iff (ex : List String) :
    ∀ links : List String,
      filterLinksGo ex links = none ↔ ∃ l ∈ links, derive_sku l = none := by
  intro links
  induction links with
  | nil => simp [filterLinksGo]
  | cons link rest ih =>
    cases h : derive_sku link with
    | none =>
      simp only [filterLinksGo, h]
      constructor
      · intro _
        exact ⟨link, List.mem_cons_self _ _, h⟩
      · intro _
        trivial
    | some sku =>
      simp only [filterLinksGo, h]
      by_cases h1 : sku = ""
      · rw [if_pos h1, ih]
        constructor
        · rintro ⟨l, hl, hd⟩
          exact ⟨l, List.mem_cons_of_mem _ hl, hd⟩
        · rintro ⟨l, hl, hd⟩
          rcases List.mem_cons.1 hl with rfl | hl
          · rw [h] at hd
            cases hd
          · exact ⟨l, hl, hd⟩
      · rw [if_neg h1]
        by_cases h2 : (ex.any fun e => e = sku) = true
        · rw [if_pos h2, ih]
          constructor
          · rintro ⟨l, hl, hd⟩
            exact ⟨l, List.mem_cons_of_mem _ hl, hd⟩
          · rintro ⟨l, hl, hd⟩
            rcases List.mem_cons.1 hl with rfl | hl
            · rw [h] at hd
              cases hd
            · exact ⟨l, hl, hd⟩
        · rw [if_neg h2]
          rw [Option.map_eq_none']
          rw [ih]
          constructor
          · rintro ⟨l, hl, hd⟩
            exact ⟨l, List.mem_cons_of_mem _ hl, hd⟩
          · rintro ⟨l, hl, hd⟩
            rcases List.mem_cons.1 hl with rfl | hl
            · rw [h] at hd
              cases hd
            · exact ⟨l, hl, hd⟩

theorem filterLinksGo_eq_filter (ex : List String) :
    ∀ (links : List String) (F : List String),
      filterLinksGo ex links = some F → F = links.filter (keepLink ex) := by
  intro links
  induction links with
  | nil =>
    intro F hF
    rw [filterLinksGo] at hF
    cases hF
    simp
  | cons link rest ih =>
    intro F hF
    cases h : derive_sku link with
    | none =>
      simp only [filterLinksGo, h] at hF
      exact Option.noConfusion hF
    | some sku =>
      simp only [filterLinksGo, h] at hF
      by_cases h1 : sku = ""
      · rw [if_pos h1] at hF
        have hknot : keepLink ex link = false := by
          simp [keepLink, h, h1]
        rw [List.filter_cons, hknot]
        simp only [Bool.false_eq_true, if_false]
        exact ih F hF
      · rw [if_neg h1] at hF
        by_cases h2 : (ex.any fun e => e = sku) = true
        · rw [if_pos h2] at hF
          have hknot : keepLink ex link = false := by
            simp [keepLink, h, h2]
          rw [List.filter_cons, hknot]
          simp only [Bool.false_eq_true, if_false]
          exact ih F hF
        · rw [if_neg h2] at hF
          cases hrec : filterLinksGo ex rest with
          | none => rw [hrec] at hF; cases hF
          | some F' =>
            rw [hrec] at hF
            simp only [Option.map_some'] at hF
            have hkeep : keepLink ex link = true := by
              simp only [keepLink, h, Bool.and_eq_true, Bool.not_eq_true']
              exact ⟨by simp [h1], eq_false_of_ne_true h2⟩
            cases hF
            rw [List.filter_cons, hkeep]
            simp only [if_true]
            rw [ih F' hrec]

theorem mem_of_mem_filter_links (ex links : List String) (l : String)
    (h : l ∈ filter_links_by_existing_skus ex links) : l ∈ links := by
  rw [filter_links_by_existing_skus] at h
  cases hgo : filterLinksGo ex links with
  | none => rw [hgo] at h; exact h
  | some F =>
    rw [hgo] at h
    simp only [Option.getD_some] at h
    rw [filterLinksGo_eq_filter ex links F hgo] at h
    exact (List.mem_filter.1 h).1

theorem keepLink_antitone (ex1 ex2 : List String)
    (hmono : ∀ k, (ex1.any fun e => e = k) = true →
      (ex2.any fun e => e = k) = true)
    (l : String) (h : keepLink ex2 l = true) : keepLink ex1 l = true := by
  rw [keepLink] at h ⊢
  cases hd : derive_sku l with
  | none => rw [hd] at h; cases h
  | some k =>
    rw [hd] at h
    simp only [Bool.and_eq_true, Bool.not_eq_true'] at h ⊢
    refine ⟨h.1, ?_⟩
    by_cases hx : (ex1.any fun e => e = k) = true
    · rw [hmono k hx] at h
      cases h.2
    · exact eq_false_of_ne_true hx

/-- a link kept by the filter against the larger key set was also kept
against the smaller one (and an aborted filter returns all links under
both). -/
theorem filter_links_mono_mem (ex1 ex2 links : List String) (l : String)
    (hmono : ∀ k, (ex1.any fun e => e = k) = true →
      (ex2.any fun e => e = k) = true)
    (hl : l ∈ filter_links_by_existing_skus ex2 links) :
    l ∈ filter_links_by_existing_skus ex1 links := by
  rw [filter_links_by_existing_skus]
  cases hgo1 : filterLinksGo ex1 links with
  | none =>
    simp only [Option.getD_none]
    exact mem_of_mem_filter_links ex2 links l hl
  | some F1 =>
    simp only [Option.getD_some]
    have hnobad : ¬∃ x ∈ links, derive_sku x = none := by
      intro hbad
      rw [← filterLinksGo_eq_none_iff ex1 links] at hbad
      rw [hgo1] at hbad
      cases hbad
    cases hgo2 : filterLinksGo ex2 links with
    | none =>
      rw [filterLinksGo_eq_none_iff ex2 links] at hgo2
      exact absurd hgo2 hnobad
    | some F2 =>
      rw [filter_links_by_existing_skus, hgo2] at hl
      simp only [Option.getD_some] at hl
      rw [filterLinksGo_eq_filter ex2 links F2 hgo2] at hl
      rw [filterLinksGo_eq_filter ex1 links F1 hgo1]
      rw [List.mem_filter] at hl ⊢
      exact ⟨hl.1, keepLink_antitone ex1 ex2 hmono l hl.2⟩

/-! ## Store evolution lemmas (towards claim C3) -/

theorem save_product_store_extend (s : Store) (r : Record) :
    ∃ t, (save_product s r).1 = s ++ t := by
  rw [save_product_spec]
  by_cases h : r.valid = true ∧ hasKey s r.sku = false ∧ r.saveFails = false
  · rw [if_pos h]
    exact ⟨[r], rfl⟩
  · rw [if_neg h]
    exact ⟨[], by simp⟩

theorem save_products_batch_cons_store (s : Store) (r : Record)
    (rest : List Record) :
    (save_products_batch s (r :: rest)).1 =
      (save_products_batch (save_product s r).1 rest).1 := by
  simp only [save_products_batch]
  split <;> rfl

theorem save_products_batch_store_extend (s : Store) (ps : List Record) :
    ∃ t, (save_products_batch s ps).1 = s ++ t := by
  induction ps generalizing s with
  | nil => exact ⟨[], by simp [save_products_batch]⟩
  | cons r rest ih =>
    obtain ⟨t1, ht1⟩ := save_product_store_extend s r
    obtain ⟨t2, ht2⟩ := ih (save_product s r).1
    refine ⟨t1 ++ t2, ?_⟩
    rw [save_products_batch_cons_store, ht2, ht1, List.append_assoc]

theorem save_attempt_rejected (s : Store) (r : Record) :
    saveRejected (save_product s r).1 r := by
  rw [save_product_spec]
  by_cases hcond : r.valid = true ∧ hasKey s r.sku = false ∧
      r.saveFails = false
  · rw [if_pos hcond]
    exact Or.inl (by simp [hasKey])
  · rw [if_neg hcond]
    by_cases hk : hasKey s r.sku = true
    · exact Or.inl hk
    · by_cases hv : r.valid = true
      · by_cases hf : r.saveFails = true
        · exact Or.inr (Or.inr hf)
        · exact absurd
            ⟨hv, eq_false_of_ne_true hk, eq_false_of_ne_true hf⟩ hcond
      · exact Or.inr (Or.inl (eq_false_of_ne_true hv))

/-- after a batch run, every record the batch attempted is rejected by
the resulting store: it either went in (so its key is now present) or
was rejected for a reason that persists. -/
theorem batch_all_rejected (s : Store) (ps : List Record) :
    ∀ r ∈ ps, saveRejected (save_products_batch s ps).1 r := by
  induction ps generalizing s with
  | nil => intro r hr; simp at hr
  | cons r0 rest ih =>
    intro r hr
    rcases List.mem_cons.1 hr with rfl | hr
    · have h0 := save_attempt_rejected s r
      obtain ⟨t, ht⟩ :=
        save_products_batch_store_extend (save_product s r).1 rest
      rw [save_products_batch_cons_store, ht]
      exact saveRejected_mono _ _ r
        (fun k hk => hasKey_append_left _ t k hk) h0
    · rw [save_products_batch_cons_store]
      exact ih (save_product s r0).1 r hr

theorem batch_rejected_zero (s : Store) (ps : List Record)
    (h : ∀ r ∈ ps, saveRejected s r) :
    (save_products_batch s ps).2.1 = 0 := by
  induction ps generalizing s with
  | nil => simp [save_products_batch]
  | cons r rest ih =>
    have h0 := save_product_rejected s r (h r (List.mem_cons_self _ _))
    simp only [save_products_batch, h0]
    simp only [Bool.false_eq_true, if_false]
    exact ih s (fun r' hr' => h r' (List.mem_cons_of_mem _ hr'))

/-! ## Batching lemmas -/

theorem chunkListGo_flatten {α : Type} (n : Nat) (hn : 1 ≤ n) :
    ∀ (fuel : Nat) (l : List α), l.length ≤ fuel →
      (chunkListGo n fuel l).flatten = l := by
  intro fuel
  induction fuel with
  | zero =>
    intro l hl
    have : l = [] := List.eq_nil_of_length_eq_zero (by omega)
    subst this
    simp [chunkListGo]
  | succ f ih =>
    intro l hl
    cases l with
    | nil => simp [chunkListGo]
    | cons a rest =>
      simp only [chunkListGo, List.flatten_cons]
      rw [ih ((a :: rest).drop n) (by
        rw [List.length_drop]
        have hlc : (a :: rest).length = rest.length + 1 := rfl
        omega)]
      exact List.take_append_drop n (a :: rest)

theorem chunkList_flatten {α : Type} (n : Nat) (hn : 1 ≤ n)
    (l : List α) : (chunkList n l).flatten = l :=
  chunkListGo_flatten n hn l.length l (Nat.le_refl _)

theorem flatten_map_filterMap {α β : Type} (g : α → Option β) :
    ∀ L : List (List α),
      (L.map (List.filterMap g)).flatten = List.filterMap g L.flatten := by
  intro L
  induction L with
  | nil => simp
  | cons a L ih =>
    simp only [List.map_cons, List.flatten_cons, List.filterMap_append, ih]

/-- the per-link extraction outcome as `parse_products_batch` collects
it: a record when the card parse returned one, nothing on a skip or an
absorbed exception. -/
def extractOf (w : PipelineWorld) (url : String) : Option Record :=
  match parse_product_card w url with
  | .ok (some r) => some r
  | _ => none

theorem ppb_eq_filterMap (w : PipelineWorld) (mc : Nat)
    (urls : List String) (hmc : 1 ≤ mc) :
    parse_products_batch w mc urls = urls.filterMap (extractOf w) :=
  calc parse_products_batch w mc urls
      = ((chunkList mc urls).map (List.filterMap (extractOf w))).flatten :=
        rfl
    _ = List.filterMap (extractOf w) (chunkList mc urls).flatten :=
        flatten_map_filterMap _ _
    _ = urls.filterMap (extractOf w) := by
        rw [chunkList_flatten mc hmc urls]

/-! ## Pipeline composition (claim C3) -/

/-- the pre-filter link set a discovery batch produces: per-URL results
(exceptions absorbed), flattened and deduplicated — independent of the
store. -/
def base_links (w : PipelineWorld) (urls : List String) : List String :=
  (((urls.map (parse_links_from_url w)).filterMap Except.toOption).flatten).dedup

theorem parse_links_batch_eq (w : PipelineWorld) (store : Store)
    (urls : List String) :
    parse_links_batch w store urls =
      filter_links_by_existing_skus (get_all_existing_skus store)
        (base_links w urls) := rfl

/-- the deduplicated union of all discovery batches of one cycle. -/
def cycle_links (w : PipelineWorld) (mc : Nat) (store : Store)
    (urls : List String) : List String :=
  (((chunkList mc urls).map fun b => parse_links_batch w store b).flatten).dedup

/-- the records one cycle extracts. -/
def cycle_products (w : PipelineWorld) (mc : Nat) (store : Store)
    (urls : List String) : List Record :=
  if (cycle_links w mc store urls).isEmpty then []
  else parse_products_batch w mc (cycle_links w mc store urls)

theorem run_full_parsing_eq (w : PipelineWorld) (mc : Nat) (store : Store)
    (urls : List String) :
    run_full_parsing w mc store urls =
      (cycle_products w mc store urls,
       (save_products_batch store (cycle_products w mc store urls)).2.1,
       (save_products_batch store (cycle_products w mc store urls)).1) :=
  rfl

theorem any_keys_eq_hasKey (s : Store) (k : String) :
    ((get_all_existing_skus s).any fun e => e = k) = hasKey s k := by
  rw [get_all_existing_skus, hasKey]
  induction s with
  | nil => rfl
  | cons r t ih => simp only [List.map_cons, List.any_cons, ih]

/-- links surviving the filter against a grown store also survive it
against the original store. -/
theorem cycle_links_mono (w : PipelineWorld) (mc : Nat) (s0 s1 : Store)
    (urls : List String)
    (hmono : ∀ k, hasKey s0 k = true → hasKey s1 k = true) :
    ∀ l ∈ cycle_links w mc s1 urls, l ∈ cycle_links w mc s0 urls := by
  intro l hl
  rw [cycle_links, List.mem_dedup, List.mem_flatten] at hl ⊢
  obtain ⟨chunkOut, hco, hlc⟩ := hl
  rw [List.mem_map] at hco
  obtain ⟨b, hb, rfl⟩ := hco
  refine ⟨parse_links_batch w s0 b, List.mem_map.2 ⟨b, hb, rfl⟩, ?_⟩
  rw [parse_links_batch_eq] at hlc ⊢
  refine filter_links_mono_mem _ _ _ l ?_ hlc
  intro k hk
  rw [any_keys_eq_hasKey] at hk ⊢
  exact hmono k hk

/-- C3: running the pipeline a second time against the store the first
run produced persists zero new records — every record the second run
extracts was already attempted by the first run (its link was discovered
and filtered identically), so it is either filtered out by the bulk
existing-keys check or rejected by `save_product`. -/
theorem c3_dedup_idempotence (w : PipelineWorld) (mc : Nat) (s0 : Store)
    (urls : List String) (hmc : 1 ≤ mc) :
    (run_full_parsing w mc
      (run_full_parsing w mc s0 urls).2.2 urls).2.1 = 0 := by
  have hs1eq : (run_full_parsing w mc s0 urls).2.2 =
      (save_products_batch s0 (cycle_products w mc s0 urls)).1 := by
    rw [run_full_parsing_eq]
  set s1 := (run_full_parsing w mc s0 urls).2.2 with hs1
  have hkeys : ∀ k, hasKey s0 k = true → hasKey s1 k = true := by
    obtain ⟨t, ht⟩ :=
      save_products_batch_store_extend s0 (cycle_products w mc s0 urls)
    intro k hk
    rw [hs1eq, ht]
    exact hasKey_append_left s0 t k hk
  rw [run_full_parsing_eq]
  show (save_products_batch s1 (cycle_products w mc s1 urls)).2.1 = 0
  apply batch_rejected_zero
  intro r hr
  rw [cycle_products] at hr
  by_cases hL2 : (cycle_links w mc s1 urls).isEmpty = true
  · rw [if_pos hL2] at hr
    simp at hr
  · rw [if_neg hL2] at hr
    rw [ppb_eq_filterMap w mc _ hmc, List.mem_filterMap] at hr
    obtain ⟨l, hl, hex⟩ := hr
    have hl1 : l ∈ cycle_links w mc s0 urls :=
      cycle_links_mono w mc s0 s1 urls hkeys l hl
    have hrP1 : r ∈ cycle_products w mc s0 urls := by
      rw [cycle_products]
      have hne : (cycle_links w mc s0 urls).isEmpty = false := by
        cases hcl : cycle_links w mc s0 urls with
        | nil => rw [hcl] at hl1; simp at hl1
        | cons a t => simp
      rw [hne]
      simp only [Bool.false_eq_true, if_false]
      rw [ppb_eq_filterMap w mc _ hmc, List.mem_filterMap]
      exact ⟨l, hl1, hex⟩
    have hrej := batch_all_rejected s0 (cycle_products w mc s0 urls) r hrP1
    rw [← hs1eq] at hrej
    exact hrej

/-- a deterministic world with real content: every page fetches, each
seed lists the one product link, and its card extracts to a record whose
key matches the link's `?id=` value. -/
def cexWorldRun : PipelineWorld :=
  { fetch := fun _ => .ok bodyOK
    listLinks := fun _ _ => [lnkWithId7]
    extract := fun _ _ => some ⟨sku7, true, false⟩ }

/-- the first cycle of the witness world persists one record, so the
witness below is not vacuous. -/
theorem cexWorldRun_first_cycle_saves_one :
    (run_full_parsing cexWorldRun 1 [] [cexUrl]).2.1 = 1 := by
  decide

/-- C3 witness: the second (identical) cycle against the store the first
cycle produced persists zero new records. -/
theorem c3_dedup_idempotence_witness :
    (run_full_parsing cexWorldRun 1
      (run_full_parsing cexWorldRun 1 [] [cexUrl]).2.2 [cexUrl]).2.1 = 0 :=
  c3_dedup_idempotence cexWorldRun 1 [] [cexUrl] (by decide)

end MobileDeParser
